/-
Verification of the Bitcoinfx-ios whale tracker (Block_alert.py) against its
natural-language specification.

The embedding below translates the Python source shallowly:
  * `BitcoinWhaleTracker.get_latest_block`'s dedup logic becomes a pure
    state-transition function `getLatestBlock` over `TrackerBlockState`
    (the pair of `last_block_height` and `processed_blocks`); the Python
    `set` of block hashes is modelled as a `List String` used only through
    membership, insertion and clearing.
  * `BitcoinWhaleTracker.process_transaction` and the inline classification
    in `track_whale_transactions` become `processTransaction` and
    `trackTransaction` over a `RawTx` record mirroring the blockchain.info
    raw-transaction dictionaries.  Python `dict.get` defaults become
    `Option.getD`; satoshi amounts are natural numbers and BTC amounts are
    exact rationals.  The Python `try/except` that swallows IndexError /
    KeyError when the `inputs` / `out` list is missing or empty is modelled
    by returning `none` on those branches.
  * `DOJAddressMonitor.update_addresses` plus the merging half of
    `start_doj_monitor`'s loop become pure functions over an association
    list (the JSON `addresses` mapping) and the `doj` address bucket.
-/
import Mathlib

/-! ## Block cursor (`get_latest_block` dedup logic) -/

/-- State owned by `get_latest_block`: `self.last_block_height` (initially
`None`) and `self.processed_blocks` (initially the empty set). -/
structure TrackerBlockState where
  lastBlockHeight : Option Nat
  processedBlocks : List String
deriving DecidableEq

/-- The tracker's state right after `__init__`: `last_block_height = None`,
`processed_blocks = set()`. -/
def initialBlockState : TrackerBlockState := ⟨none, []⟩

/-- Embedding of the dedup logic of `get_latest_block` (Block_alert.py
lines 365-392), applied to the `(height, hash)` pair the endpoint returned:
bootstrap on first call (records the height but not the hash), then the
membership check, then the height check with a full flush of the set when
its size exceeds 1000 before inserting. Returns the poll result together
with the updated state. -/
def getLatestBlock (height : Nat) (hash : String) (s : TrackerBlockState) :
    Option String × TrackerBlockState :=
  match s.lastBlockHeight with
  | none => (some hash, { s with lastBlockHeight := some height })
  | some last =>
    if hash ∈ s.processedBlocks then (none, s)
    else if height > last then
      let kept := if s.processedBlocks.length > 1000 then [] else s.processedBlocks
      (some hash, ⟨some height, hash :: kept⟩)
    else (none, s)

/-- The i-th distinct block hash used in the 1001-insert scenario; distinct
hashes are realised as runs of `a` of distinct lengths. -/
def hashOf (n : Nat) : String := String.mk (List.replicate n 'a')

/-- Feeding the cursor the blocks `(1, hashOf 1), (2, hashOf 2), …` in
order of strictly increasing height, starting from the initial state. -/
def runSeq : Nat → TrackerBlockState
  | 0 => initialBlockState
  | n + 1 => (getLatestBlock (n + 1) (hashOf (n + 1)) (runSeq n)).2

/-- The contents of `processed_blocks` after `n` observes of the scenario:
the bootstrap call records nothing, so only hashes 2..n are present. -/
def expectedHashes : Nat → List String
  | 0 => []
  | 1 => []
  | n + 2 => hashOf (n + 2) :: expectedHashes (n + 1)

theorem hashOf_injective : Function.Injective hashOf := by
  intro m n h
  have hm : (hashOf m).length = (hashOf n).length := by rw [h]
  simpa [hashOf, String.length] using hm

theorem length_expectedHashes : ∀ n, (expectedHashes (n + 1)).length = n
  | 0 => rfl
  | n + 1 => by simp [expectedHashes, length_expectedHashes n]

theorem mem_expectedHashes {x : String} :
    ∀ {n : Nat}, x ∈ expectedHashes n → ∃ k, 2 ≤ k ∧ k ≤ n ∧ x = hashOf k := by
  intro n
  induction n using Nat.strong_induction_on with
  | _ n ih =>
    match n with
    | 0 => intro h; simp [expectedHashes] at h
    | 1 => intro h; simp [expectedHashes] at h
    | n + 2 =>
      intro h
      rcases List.mem_cons.mp h with h | h
      · exact ⟨n + 2, by omega, le_refl _, h⟩
      · obtain ⟨k, hk2, hkn, hx⟩ := ih (n + 1) (by omega) h
        exact ⟨k, hk2, by omega, hx⟩

theorem hashOf_not_mem_expectedHashes {m n : Nat} (h : n < m) :
    hashOf m ∉ expectedHashes n := by
  intro hmem
  obtain ⟨k, _, hkn, hx⟩ := mem_expectedHashes hmem
  have := hashOf_injective hx
  omega

/-- Invariant of the 1001-insert scenario, valid until the flush fires:
after the `(n+1)`-st observe (with at most 1001 non-bootstrap inserts so
far) the cursor height is `n+1` and the set holds exactly hashes 2..n+1. -/
theorem runSeq_invariant :
    ∀ n, n ≤ 1001 →
      (runSeq (n + 1)).lastBlockHeight = some (n + 1) ∧
      (runSeq (n + 1)).processedBlocks = expectedHashes (n + 1) := by
  intro n
  induction n with
  | zero =>
    intro _
    constructor <;> rfl
  | succ m ih =>
    intro hle
    obtain ⟨hlast, hproc⟩ := ih (by omega)
    have hnotmem : hashOf (m + 2) ∉ expectedHashes (m + 1) :=
      hashOf_not_mem_expectedHashes (by omega)
    have hlen : ¬ (expectedHashes (m + 1)).length > 1000 := by
      rw [length_expectedHashes]; omega
    have hstep : runSeq (m + 2) = ⟨some (m + 2), expectedHashes (m + 2)⟩ := by
      show (getLatestBlock (m + 2) (hashOf (m + 2)) (runSeq (m + 1))).2 = _
      simp only [getLatestBlock, hlast, hproc]
      rw [if_neg hnotmem, if_pos (by omega : m + 2 > m + 1), if_neg hlen]
      rfl
    rw [hstep]
    exact ⟨rfl, rfl⟩

/-- If the cursor already has a baseline height and the offered height does
not exceed it, the observation is rejected whether or not the hash is in
the set. -/
theorem getLatestBlock_stale {s : TrackerBlockState} {last height : Nat}
    (hlast : s.lastBlockHeight = some last) (hle : height ≤ last)
    (hash : String) : (getLatestBlock height hash s).1 = none := by
  simp only [getLatestBlock, hlast]
  by_cases hmem : hash ∈ s.processedBlocks
  · rw [if_pos hmem]
  · rw [if_neg hmem, if_neg (by omega : ¬ height > last)]

theorem runSeq_1002_fields :
    (runSeq 1002).lastBlockHeight = some 1002 ∧
    (runSeq 1002).processedBlocks = expectedHashes 1002 := by
  have h := runSeq_invariant 1001 (le_refl _)
  norm_num at h
  exact h

theorem runSeq_succ_eq (n : Nat) :
    runSeq (n + 1) = (getLatestBlock (n + 1) (hashOf (n + 1)) (runSeq n)).2 := rfl

/-- Symbolic description of the accepting branch of `get_latest_block`:
known baseline, unseen hash, strictly larger height. -/
theorem getLatestBlock_accept {s : TrackerBlockState} {last height : Nat} {hash : String}
    (hlast : s.lastBlockHeight = some last) (hmem : hash ∉ s.processedBlocks)
    (hgt : height > last) :
    getLatestBlock height hash s =
      (some hash, ⟨some height,
        hash :: if s.processedBlocks.length > 1000 then [] else s.processedBlocks⟩) := by
  simp only [getLatestBlock, hlast]
  rw [if_neg hmem, if_pos hgt]

theorem runSeq_1003_eq : runSeq 1003 = ⟨some 1003, [hashOf 1003]⟩ := by
  obtain ⟨hlast, hproc⟩ := runSeq_1002_fields
  have hstep := runSeq_succ_eq 1002
  norm_num at hstep
  have hmem : hashOf 1003 ∉ (runSeq 1002).processedBlocks := by
    rw [hproc]; exact hashOf_not_mem_expectedHashes (by omega)
  have hlenx := length_expectedHashes 1001
  norm_num at hlenx
  have hlen : (runSeq 1002).processedBlocks.length > 1000 := by
    rw [hproc, hlenx]
    omega
  have haccept := getLatestBlock_accept hlast hmem (by omega : 1003 > 1002)
  rw [hstep, haccept, if_pos hlen]

theorem hashOf_one_reobserve_none :
    (getLatestBlock 1 (hashOf 1) (runSeq 1001)).1 = none := by
  have h := runSeq_invariant 1000 (by omega)
  norm_num at h
  exact getLatestBlock_stale h.1 (by omega) (hashOf 1)

theorem runSeq_1001_fields :
    (runSeq 1001).lastBlockHeight = some 1001 ∧
    (runSeq 1001).processedBlocks = expectedHashes 1001 := by
  have h := runSeq_invariant 1000 (by omega)
  norm_num at h
  exact h

theorem getLatestBlock_dup_fst {s : TrackerBlockState} {last : Nat} (height : Nat)
    {hash : String} (hlast : s.lastBlockHeight = some last)
    (hmem : hash ∈ s.processedBlocks) : (getLatestBlock height hash s).1 = none := by
  simp only [getLatestBlock, hlast]
  rw [if_pos hmem]

theorem getLatestBlock_not_newer {s : TrackerBlockState} {last height : Nat} {hash : String}
    (hlast : s.lastBlockHeight = some last) (hmem : hash ∉ s.processedBlocks)
    (hng : ¬ height > last) : getLatestBlock height hash s = (none, s) := by
  simp only [getLatestBlock, hlast]
  rw [if_neg hmem, if_neg hng]

/-- C3 counterexample: inserting 1001 distinct hashes (heights 1..1001,
hashes `hashOf 1` .. `hashOf 1001`) and then re-observing the very first
height/hash pair yields `none`, not the hash the claim promises; moreover
the set then still holds 1000 entries, so no flush has been triggered
either. -/
theorem dedup_flush_counterexample :
    (getLatestBlock 1 (hashOf 1) (runSeq 1001)).1 = none ∧
    (runSeq 1001).processedBlocks.length = 1000 := by
  obtain ⟨hlast, hproc⟩ := runSeq_1001_fields
  refine ⟨getLatestBlock_stale hlast (by omega) (hashOf 1), ?_⟩
  have hlenx := length_expectedHashes 1000
  norm_num at hlenx
  rw [hproc, hlenx]

/-- C3 (amended): with maxSize 1000, after 1001 distinct observes at
increasing heights the set holds 1000 hashes (the bootstrap call records
no hash) and no flush has occurred; re-observing the 1st pair still
returns `none` because its height is not above the baseline; the flush
fires on the 1003rd distinct observe, leaving only the newest hash in the
set; after the flush the 1st hash is accepted again, but only when
offered at a height above the current baseline. -/
theorem dedup_flush_behavior :
    (runSeq 1001).processedBlocks.length = 1000 ∧
    (runSeq 1002).processedBlocks.length = 1001 ∧
    runSeq 1003 = ⟨some 1003, [hashOf 1003]⟩ ∧
    (getLatestBlock 1 (hashOf 1) (runSeq 1001)).1 = none ∧
    (getLatestBlock 1004 (hashOf 1) (runSeq 1003)).1 = some (hashOf 1) := by
  obtain ⟨hlast1, hproc1⟩ := runSeq_1001_fields
  obtain ⟨hlast2, hproc2⟩ := runSeq_1002_fields
  have hlen1 := length_expectedHashes 1000
  have hlen2 := length_expectedHashes 1001
  norm_num at hlen1 hlen2
  refine ⟨by rw [hproc1, hlen1], by rw [hproc2, hlen2], runSeq_1003_eq,
    getLatestBlock_stale hlast1 (by omega) (hashOf 1), ?_⟩
  have hlast3 : (runSeq 1003).lastBlockHeight = some 1003 := by rw [runSeq_1003_eq]
  have hmem3 : hashOf 1 ∉ (runSeq 1003).processedBlocks := by
    intro hm
    rw [runSeq_1003_eq] at hm
    have hm1 : hashOf 1 = hashOf 1003 := by simpa using hm
    have := hashOf_injective hm1
    omega
  rw [getLatestBlock_accept hlast3 hmem3 (by omega : 1004 > 1003)]

/-- C4: BlockCursor bootstrap and immediate-repeat behavior of
`get_latest_block`: from the fresh tracker state the first observe of any
height/hash pair returns the hash unconditionally, an immediately repeated
observe of the same pair returns `none`, and from any state at all, if an
observe returned the hash then repeating it with the same pair returns
`none`. -/
theorem observe_twice (s : TrackerBlockState) (height : Nat) (hash : String) :
    (getLatestBlock height hash initialBlockState).1 = some hash ∧
    (getLatestBlock height hash (getLatestBlock height hash initialBlockState).2).1 = none ∧
    ((getLatestBlock height hash s).1 = some hash →
      (getLatestBlock height hash (getLatestBlock height hash s).2).1 = none) := by
  refine ⟨rfl, getLatestBlock_stale rfl (le_refl height) hash, ?_⟩
  intro hfirst
  cases hs : s.lastBlockHeight with
  | none =>
    have h2 : (getLatestBlock height hash s).2.lastBlockHeight = some height := by
      simp [getLatestBlock, hs]
    exact getLatestBlock_stale h2 (le_refl height) hash
  | some last =>
    by_cases hmem : hash ∈ s.processedBlocks
    · exfalso
      rw [getLatestBlock_dup_fst height hs hmem] at hfirst
      exact Option.noConfusion hfirst
    · by_cases hgt : height > last
      · rw [getLatestBlock_accept hs hmem hgt]
        exact getLatestBlock_dup_fst height rfl (List.mem_cons_self _ _)
      · exfalso
        rw [getLatestBlock_not_newer hs hmem hgt] at hfirst
        exact Option.noConfusion hfirst

/-- Witness for C4: concrete run with height 7, hash "blockhash", and a
non-fresh state whose baseline height is 3. -/
theorem observe_twice_witness :
    (getLatestBlock 7 "blockhash" initialBlockState).1 = some "blockhash" ∧
    (getLatestBlock 7 "blockhash"
      (getLatestBlock 7 "blockhash" initialBlockState).2).1 = none ∧
    (getLatestBlock 7 "blockhash"
      (getLatestBlock 7 "blockhash" ⟨some 3, ["other"]⟩).2).1 = none :=
  ⟨(observe_twice ⟨some 3, ["other"]⟩ 7 "blockhash").1,
   (observe_twice ⟨some 3, ["other"]⟩ 7 "blockhash").2.1,
   (observe_twice ⟨some 3, ["other"]⟩ 7 "blockhash").2.2 (by decide)⟩

/-! ## Raw transactions, volumes and fees -/

/-- The `prev_out` sub-dictionary of a raw-transaction input; `value` and
`addr` may each be missing from the provider's JSON. -/
structure PrevOut where
  value : Option Nat
  addr : Option String
deriving DecidableEq

/-- One entry of a raw transaction's `inputs` list; the `prev_out` key
itself may be missing. -/
structure TxInput where
  prev_out : Option PrevOut
deriving DecidableEq

/-- One entry of a raw transaction's `out` list. -/
structure TxOutput where
  value : Option Nat
  addr : Option String
deriving DecidableEq

/-- A raw transaction as the chain-data provider returns it: exactly the
fields the tracker reads. A missing `inputs`/`out` key and an empty list
behave identically everywhere the tracker touches them (the sums use
`tx.get(…, [])`, and `tx['…'][0]` raises on both a missing key and an
empty list), so both are modelled as `[]`. -/
structure RawTx where
  inputs : List TxInput
  out : List TxOutput
  hash : Option String
  time : Option Nat
deriving DecidableEq

/-- `inp.get('prev_out', {}).get('value', 0)`. -/
def inputValue (i : TxInput) : Nat :=
  match i.prev_out with
  | none => 0
  | some p => p.value.getD 0

/-- `inp.get('prev_out', {}).get('addr', 'Unknown')`, as read off the
first input. -/
def inputAddr (i : TxInput) : String :=
  match i.prev_out with
  | none => "Unknown"
  | some p => p.addr.getD "Unknown"

/-- `total_input = sum(inp.get('prev_out', {}).get('value', 0) for inp in
tx.get('inputs', []))`, in satoshi. -/
def totalInput (tx : RawTx) : Nat := (tx.inputs.map inputValue).sum

/-- `total_output = sum(out.get('value', 0) for out in tx.get('out', []))`,
in satoshi. -/
def totalOutput (tx : RawTx) : Nat := (tx.out.map (fun o => o.value.getD 0)).sum

/-- `self.satoshi_to_btc = 100000000`. -/
def satoshi_to_btc : ℚ := 100000000

/-- `btc_volume = total_input / self.satoshi_to_btc`, in exact rational
arithmetic. -/
def btcVolume (tx : RawTx) : ℚ := (totalInput tx : ℚ) / satoshi_to_btc

/-- `fee_btc = (total_input - total_output) / self.satoshi_to_btc`; the
subtraction is not clamped, so the fee is negative whenever the outputs
exceed the inputs. -/
def feeBtc (tx : RawTx) : ℚ :=
  ((totalInput tx : ℚ) - (totalOutput tx : ℚ)) / satoshi_to_btc

/-! ## The known-address registry -/

/-- `known_addresses['binance']['addresses']`. -/
def binanceAddresses : List String :=
  ["3FaA4dJuuvJFyUHbqHLkZKJcuDPugvG3zE",
   "1NDyJtNTjmwk5xPNhjgAMu4HDHigtobu1s",
   "34xp4vRoCGJym3xR7yCVPFHoCNxv4Twseo",
   "1LQv8aKtQoiY5M5zkaG8RWL7LMwNzNsLfb",
   "1AC4fMwgY8j9onSbXEWeH6Zan8QGMSdmtA"]

/-- `known_addresses['coinbase']['addresses']`. -/
def coinbaseAddresses : List String :=
  ["3FzScn724foqFRWvL1kCZwitQvcxrnSQ4K",
   "3Kzh9qAqVWQhEsfQz7zEQL1EuSx5tyNLNS",
   "1CWYTCvwKfH5cWnX3VcAykgTsmjsuB3wXe",
   "1FxkfJQLJTXpW6QmxGT6hEo5DtBrnFpM3r",
   "1GR9qNz7zgtaW5HwwVpEJWMnGWhsbsieCG"]

/-- Entity class (`type`) and address list of one `known_addresses`
entry. -/
structure EntityInfo where
  type : String
  addresses : List String
deriving DecidableEq

/-- The `known_addresses` registry (Block_alert.py lines 174-320), in the
Python dict's insertion order; the `doj` bucket is dynamic and passed
in. -/
def known_addresses (dojAddrs : List String) : List (String × EntityInfo) :=
  [("binance", ⟨"exchange", binanceAddresses⟩),
   ("coinbase", ⟨"exchange", coinbaseAddresses⟩),
   ("grayscale", ⟨"investment",
     ["bc1qe7nps5yv7ruc884zscwrk9g2mxvqh7tkxfxwny",
      "bc1qkz7u6l5c8wqz8nc5yxkls2j8u4y2hkdzlgfnl4"]⟩),
   ("microstrategy", ⟨"corporate",
     ["bc1qazcm763858nkj2dj986etajv6wquslv8uxwczt",
      "bc1qxy2kgdygjrsqtzq2n0yrf2493p83kkfjhx0wlh"]⟩),
   ("blockfi", ⟨"lending",
     ["bc1q7kyrfmx49qa7n6g8mvlh36d4w9zf4lkwfg4j5q",
      "bc1qd73dxk2qfs2x5wv2sesvqrzgx7t5tqt4y5vpym"]⟩),
   ("celsius", ⟨"lending",
     ["bc1q06ymtp6eq27mlz3ppv8z7esc8vq3v4nsjx9eng",
      "bc1qcex3e38gqh6qnzpn9jth5drgfyh5k9sjzq3rkm"]⟩),
   ("kraken", ⟨"exchange",
     ["3FupZp77ySr7jwoLYEJ9mwzJpvoNBXsBnE",
      "3H5JTt42K7RmZtromfTSefcMEFMMe18pMD",
      "3AfP9N7KNq2pYXiGQdgNJy8SD2Mo7pQKUR",
      "3E1jkR1PJ8hFUqCkDjimwPoF2bZVrkqnpv"]⟩),
   ("bitfinex", ⟨"exchange",
     ["3D2oetdNuZUqQHPJmcMDDHYoqkyNVsFk9r",
      "3JZq4atUahhuA9rLhXLMhhTo133J9rF97j",
      "3QW95MafxER9W7kWDcosQNdLk4Z36TYJZL"]⟩),
   ("huobi", ⟨"exchange",
     ["3M219KR5vEneNb47ewrPfWyb5jQ2DjxRP6",
      "38WUPqGLXphpD1DwkMR8koGfd5UQfRnmrk",
      "1HckjUpRGcrrRAtFaaCAUaGjsPx9oYmLaZ"]⟩),
   ("okex", ⟨"exchange",
     ["3LQUu4v9z6KNch71j7kbj8GPeAGUo1FW6a",
      "3LCGsSmfr24demGvriN4e3ft8wEcDuHFqh",
      "3FupZp77ySr7jwoLYEJ9mwzJpvoNBXsBnE"]⟩),
   ("gemini", ⟨"exchange",
     ["3P3QsMVK89JBNqZQv5zMAKG8FK3kJM4rjt",
      "393HLwqnkrJMxYQTHjWBJPAKC3UG6k6FwB",
      "3AAzK4Xbu8PTM8AD7gw2XaMZavL6xoKWHQ"]⟩),
   ("bitstamp", ⟨"exchange",
     ["3P3QsMVK89JBNqZQv5zMAKG8FK3kJM4rjt",
      "3D2oetdNuZUqQHPJmcMDDHYoqkyNVsFk9r",
      "3DbAZpqKhUBu4rqafHzj7hWquoBL6gFBvj"]⟩),
   ("bittrex", ⟨"exchange",
     ["3KJrsjfg1dD6CrsTeHdM5SSk3PhXjNwhA7",
      "3KJrsjfg1dD6CrsTeHdM5SSk3PhXjNwhA7",
      "3QW95MafxER9W7kWDcosQNdLk4Z36TYJZL"]⟩),
   ("kucoin", ⟨"exchange",
     ["3M219KR5vEneNb47ewrPfWyb5jQ2DjxRP6",
      "3H5JTt42K7RmZtromfTSefcMEFMMe18pMD",
      "3AfP9N7KNq2pYXiGQdgNJy8SD2Mo7pQKUR"]⟩),
   ("gate_io", ⟨"exchange",
     ["3FupZp77ySr7jwoLYEJ9mwzJpvoNBXsBnE",
      "38WUPqGLXphpD1DwkMR8koGfd5UQfRnmrk"]⟩),
   ("ftx", ⟨"exchange",
     ["3LQUu4v9z6KNch71j7kbj8GPeAGUo1FW6a",
      "3E1jkR1PJ8hFUqCkDjimwPoF2bZVrkqnpv"]⟩),
   ("bybit", ⟨"exchange",
     ["3JZq4atUahhuA9rLhXLMhhTo133J9rF97j",
      "3QW95MafxER9W7kWDcosQNdLk4Z36TYJZL"]⟩),
   ("cryptocom", ⟨"exchange",
     ["3P3QsMVK89JBNqZQv5zMAKG8FK3kJM4rjt",
      "3AAzK4Xbu8PTM8AD7gw2XaMZavL6xoKWHQ"]⟩),
   ("doj", ⟨"government", dojAddrs⟩)]

/-- Resolution of an address to its entity class: the class of the first
registry entity whose address list contains it (the iteration order of
`get_entity_name` / `get_address_label`), `none` when unknown. -/
def entityClassOf (dojAddrs : List String) (addr : String) : Option String :=
  ((known_addresses dojAddrs).find? (fun p => p.2.addresses.contains addr)).map
    (fun p => p.2.type)

/-! ## The two classification code paths -/

/-- The transaction-type chain of `process_transaction` (lines 491-497),
with the source's literal labels — including the misspelling `witdrawal`
and the default `alert #bitcoin`. -/
def processTxType (dojAddrs : List String) (sender receiver : String) : String :=
  if sender ∈ binanceAddresses ∨ sender ∈ coinbaseAddresses then "witdrawal"
  else if receiver ∈ binanceAddresses ∨ receiver ∈ coinbaseAddresses then "deposit"
  else if sender ∈ dojAddrs ∨ receiver ∈ dojAddrs then "doj transfer"
  else "alert #bitcoin"

/-- The transaction-type chain of the `track_whale_transactions` loop
(lines 553-559). -/
def trackTxType (dojAddrs : List String) (sender receiver : String) : String :=
  if sender ∈ binanceAddresses ∨ sender ∈ coinbaseAddresses then "WITHDRAWAL"
  else if receiver ∈ binanceAddresses ∨ receiver ∈ coinbaseAddresses then "DEPOSIT"
  else if sender ∈ dojAddrs ∨ receiver ∈ dojAddrs then "DOJ TRANSFER"
  else "UNKNOWN"

/-- The dictionary `process_transaction` returns for a whale transaction.
The `timestamp` field holds the epoch seconds `tx.get('time', 0)` that the
source feeds to `datetime.fromtimestamp(…).strftime(…)`; both code paths
apply that identical rendering to this number, so the number is the
model-level content of the field. -/
structure WhaleRecord where
  transaction_hash : String
  timestamp : Nat
  btc_volume : ℚ
  fee_btc : ℚ
  sender : String
  receiver : String
  tx_type : String
deriving DecidableEq

/-- Embedding of `process_transaction` (lines 471-511). The guard is the
source's `btc_volume >= self.min_btc`. The `[0]` indexing on a missing or
empty `inputs`/`out` list raises IndexError/KeyError in the source, which
the enclosing `except` turns into a logged `None` return — that is the
`none` of the catch-all match arm. -/
def process_transaction (min_btc : ℚ) (dojAddrs : List String) (tx : RawTx) :
    Option WhaleRecord :=
  if min_btc ≤ btcVolume tx then
    match tx.inputs, tx.out with
    | inp :: _, o :: _ =>
      let sender := inputAddr inp
      let receiver := o.addr.getD "Unknown"
      some { transaction_hash := tx.hash.getD "Unknown",
             timestamp := tx.time.getD 0,
             btc_volume := btcVolume tx,
             fee_btc := feeBtc tx,
             sender := sender,
             receiver := receiver,
             tx_type := processTxType dojAddrs sender receiver }
    | _, _ => none
  else none

/-- The `whale_tx` dictionary built inline by `track_whale_transactions`;
`btc_volume` and `fee_btc` are stored as 8-decimal formatted strings. -/
structure TrackRecord where
  transaction_hash : String
  timestamp : Nat
  btc_volume : String
  fee_btc : String
  sender : String
  receiver : String
  tx_type : String
deriving DecidableEq

/-- Rendering of the satoshi amount `v` as `f"{v / 1e8:.8f}"` produces it
for the exactly representable quotients arising here: sign, integer part,
dot, 8-digit zero-padded fraction. -/
def fmtSat8 (v : ℤ) : String :=
  (if v < 0 then "-" else "") ++ toString (v.natAbs / 100000000) ++ "." ++
    (String.mk (List.replicate (8 - (toString (v.natAbs % 100000000)).length) '0')
      ++ toString (v.natAbs % 100000000))

/-- Embedding of the per-transaction body of the `track_whale_transactions`
loop (lines 527-570), producing the `whale_tx` dictionary. As in
`process_transaction`, `[0]` on a missing/empty list raises in the source
(there the loop-level `except` also abandons the rest of the block; per
transaction the outcome is no record, the `none` branch here). -/
def trackTransaction (min_btc : ℚ) (dojAddrs : List String) (tx : RawTx) :
    Option TrackRecord :=
  if min_btc ≤ btcVolume tx then
    match tx.inputs, tx.out with
    | inp :: _, o :: _ =>
      let sender := inputAddr inp
      let receiver := o.addr.getD "Unknown"
      some { transaction_hash := tx.hash.getD "Unknown",
             timestamp := tx.time.getD 0,
             btc_volume := fmtSat8 (totalInput tx : ℤ),
             fee_btc := fmtSat8 ((totalInput tx : ℤ) - (totalOutput tx : ℤ)),
             sender := sender,
             receiver := receiver,
             tx_type := trackTxType dojAddrs sender receiver }
    | _, _ => none
  else none

/-! ## C1: classification precedence -/

/-- A Kraken hot-wallet address from the registry (exchange class, but
outside the binance/coinbase lists the classifier consults). -/
def krakenHot : String := "3FupZp77ySr7jwoLYEJ9mwzJpvoNBXsBnE"

/-- C1 counterexample: the sender `krakenHot` resolves to an exchange-class
entity, yet a whale transaction it sends to an unknown receiver classifies
as `UNKNOWN`, and one it sends to a government-class receiver classifies
as `DOJ TRANSFER` — not `WITHDRAWAL` as the claim requires, because the
code's exchange test covers only the binance and coinbase address lists. -/
theorem classification_exchange_class_counterexample :
    entityClassOf ["Dgov"] krakenHot = some "exchange" ∧
    entityClassOf ["Dgov"] "Dgov" = some "government" ∧
    trackTxType [] krakenHot "1UnknownReceiver" = "UNKNOWN" ∧
    (trackTransaction 500 ["Dgov"]
        ⟨[⟨some ⟨some 60000000000, some krakenHot⟩⟩],
         [⟨some 59990000000, some "Dgov"⟩], some "H", some 0⟩).map
      (fun r => r.tx_type) = some "DOJ TRANSFER" := by
  refine ⟨by decide, by decide, by decide, ?_⟩
  norm_num [trackTransaction, btcVolume, totalInput, totalOutput, inputValue, inputAddr,
    satoshi_to_btc, trackTxType, binanceAddresses, coinbaseAddresses, krakenHot]
  decide

/-- C1 (amended): the precedence chain of the classifier holds with the
exchange test restricted to the binance and coinbase address lists (the
only exchange entities the code consults): sender there → WITHDRAWAL;
else receiver there → DEPOSIT; else sender or receiver in the doj bucket
→ DOJ TRANSFER; else UNKNOWN. In particular a binance/coinbase sender
beats a government-class receiver and yields WITHDRAWAL. -/
theorem trackTxType_precedence (dojAddrs : List String) (sender receiver : String) :
    (sender ∈ binanceAddresses ∨ sender ∈ coinbaseAddresses →
      trackTxType dojAddrs sender receiver = "WITHDRAWAL") ∧
    (sender ∉ binanceAddresses → sender ∉ coinbaseAddresses →
      receiver ∈ binanceAddresses ∨ receiver ∈ coinbaseAddresses →
      trackTxType dojAddrs sender receiver = "DEPOSIT") ∧
    (sender ∉ binanceAddresses → sender ∉ coinbaseAddresses →
      receiver ∉ binanceAddresses → receiver ∉ coinbaseAddresses →
      sender ∈ dojAddrs ∨ receiver ∈ dojAddrs →
      trackTxType dojAddrs sender receiver = "DOJ TRANSFER") ∧
    (sender ∉ binanceAddresses → sender ∉ coinbaseAddresses →
      receiver ∉ binanceAddresses → receiver ∉ coinbaseAddresses →
      sender ∉ dojAddrs → receiver ∉ dojAddrs →
      trackTxType dojAddrs sender receiver = "UNKNOWN") := by
  refine ⟨?_, ?_, ?_, ?_⟩
  · intro h
    rw [trackTxType, if_pos h]
  · intro h1 h2 h3
    rw [trackTxType, if_neg (by tauto), if_pos h3]
  · intro h1 h2 h3 h4 h5
    rw [trackTxType, if_neg (by tauto), if_neg (by tauto), if_pos h5]
  · intro h1 h2 h3 h4 h5 h6
    rw [trackTxType, if_neg (by tauto), if_neg (by tauto), if_neg (by tauto)]

/-- Witness for C1's amended precedence: a binance hot-wallet sender with
a government-class receiver classifies as WITHDRAWAL. -/
theorem trackTxType_precedence_witness :
    trackTxType ["Dgov"] "3FaA4dJuuvJFyUHbqHLkZKJcuDPugvG3zE" "Dgov" = "WITHDRAWAL" :=
  (trackTxType_precedence ["Dgov"] "3FaA4dJuuvJFyUHbqHLkZKJcuDPugvG3zE" "Dgov").1
    (Or.inl (by decide))

/-! ## C2: the whale threshold filter -/

/-- C2 counterexample: a transaction whose inputs sum to exactly the
threshold (500 BTC = min_btc) but whose `out` list is missing/empty is
classified to `None` although its volume is not below the threshold — the
"returns null exactly when below threshold" equivalence fails. -/
theorem threshold_iff_counterexample :
    process_transaction 500 []
      ⟨[⟨some ⟨some 50000000000, some "S"⟩⟩], [], some "h2", some 0⟩ = none ∧
    ¬ btcVolume ⟨[⟨some ⟨some 50000000000, some "S"⟩⟩], [], some "h2", some 0⟩ < 500 := by
  constructor <;>
    norm_num [process_transaction, btcVolume, totalInput, inputValue, satoshi_to_btc]

/-- C2 (amended): `process_transaction` returns `None` whenever
`btc_volume < min_btc` (so a volume equal to the threshold passes the
`>=` filter), and for transactions with nonempty `inputs` and `out` lists
the converse holds as well: `None` is returned exactly below the
threshold. (A missing/empty list can additionally force `None` above the
threshold — see C5.) -/
theorem process_transaction_threshold (min_btc : ℚ) (dojAddrs : List String) (tx : RawTx) :
    (btcVolume tx < min_btc → process_transaction min_btc dojAddrs tx = none) ∧
    (tx.inputs ≠ [] → tx.out ≠ [] →
      (process_transaction min_btc dojAddrs tx = none ↔ btcVolume tx < min_btc)) := by
  have hlt : btcVolume tx < min_btc → process_transaction min_btc dojAddrs tx = none := by
    intro h
    rw [process_transaction, if_neg (not_le.mpr h)]
  refine ⟨hlt, ?_⟩
  intro hi ho
  refine ⟨?_, hlt⟩
  intro hnone
  by_contra hv
  push_neg at hv
  rw [process_transaction, if_pos hv] at hnone
  cases hie : tx.inputs with
  | nil => exact hi hie
  | cons inp ins =>
    cases hoe : tx.out with
    | nil => exact ho hoe
    | cons o os =>
      rw [hie, hoe] at hnone
      exact Option.noConfusion hnone

/-- Witness for C2's amended threshold facts: a well-formed transaction
whose volume is exactly the threshold is kept (the iff refutes `None`). -/
theorem process_transaction_threshold_witness :
    (btcVolume ⟨[⟨some ⟨some 50000000000, some "S"⟩⟩],
        [⟨some 49000000000, some "R"⟩], some "h3", some 0⟩ < 500 →
      process_transaction 500 []
        ⟨[⟨some ⟨some 50000000000, some "S"⟩⟩],
         [⟨some 49000000000, some "R"⟩], some "h3", some 0⟩ = none) ∧
    (process_transaction 500 []
        ⟨[⟨some ⟨some 50000000000, some "S"⟩⟩],
         [⟨some 49000000000, some "R"⟩], some "h3", some 0⟩ = none ↔
      btcVolume ⟨[⟨some ⟨some 50000000000, some "S"⟩⟩],
        [⟨some 49000000000, some "R"⟩], some "h3", some 0⟩ < 500) :=
  ⟨(process_transaction_threshold 500 []
      ⟨[⟨some ⟨some 50000000000, some "S"⟩⟩],
       [⟨some 49000000000, some "R"⟩], some "h3", some 0⟩).1,
   (process_transaction_threshold 500 []
      ⟨[⟨some ⟨some 50000000000, some "S"⟩⟩],
       [⟨some 49000000000, some "R"⟩], some "h3", some 0⟩).2
     (by decide) (by decide)⟩

/-! ## C5: malformed transactions -/

/-- C5 counterexample: a transaction over the threshold (600 BTC of
inputs) with a missing/empty `out` list yields `None` — the source raises
IndexError internally and the handler logs and returns `None` — instead
of proceeding with receiver = "Unknown"; so `None` is not reserved for
non-numeric total failure. -/
theorem malformed_missing_out_counterexample :
    process_transaction 500 []
      ⟨[⟨some ⟨some 60000000000, some "A"⟩⟩], [], some "H", some 0⟩ = none ∧
    500 ≤ btcVolume ⟨[⟨some ⟨some 60000000000, some "A"⟩⟩], [], some "H", some 0⟩ := by
  constructor <;>
    norm_num [process_transaction, btcVolume, totalInput, inputValue, satoshi_to_btc]

/-- C5 (amended): the classifier is a total function into `Option` — no
exception escapes to the caller. Fields missing inside an existing first
input/output default: an absent `prev_out` or `addr` makes the party the
sentinel "Unknown" (and absent `value` fields count as 0 in the sums).
But a transaction that passes the threshold with a missing or empty
`inputs` or `out` list yields `None` (the caught IndexError), not a
record with "Unknown" parties. -/
theorem malformed_handling (min_btc : ℚ) (dojAddrs : List String) (tx : RawTx) :
    (tx.inputs = [] ∨ tx.out = [] → process_transaction min_btc dojAddrs tx = none) ∧
    (∀ inp ins o os, tx.inputs = inp :: ins → tx.out = o :: os →
      inp.prev_out = none → o.addr = none → min_btc ≤ btcVolume tx →
      process_transaction min_btc dojAddrs tx =
        some ⟨tx.hash.getD "Unknown", tx.time.getD 0, btcVolume tx, feeBtc tx,
              "Unknown", "Unknown", processTxType dojAddrs "Unknown" "Unknown"⟩) := by
  constructor
  · intro h
    rw [process_transaction]
    by_cases hv : min_btc ≤ btcVolume tx
    · rw [if_pos hv]
      rcases h with h | h
      · rw [h]
      · rw [h]
        cases tx.inputs <;> rfl
    · rw [if_neg hv]
  · intro inp ins o os hi ho hpo hoaddr hv
    rw [process_transaction, if_pos hv, hi, ho]
    simp [inputAddr, hpo, hoaddr]

/-- Witness for C5's amended statement: one transaction with an empty
`inputs` list maps to `None`, and one whale transaction whose first input
lacks `prev_out` and whose first output lacks `addr` produces the record
with both "Unknown" sentinels (a later input carries the 600 BTC). -/
theorem malformed_handling_witness :
    process_transaction 500 [] ⟨[], [⟨some 1, some "B"⟩], some "H", some 0⟩ = none ∧
    process_transaction 500 []
      ⟨[⟨none⟩, ⟨some ⟨some 60000000000, some "X"⟩⟩],
       [⟨some 59990000000, none⟩], some "H", some 3⟩ =
      some ⟨Option.getD (some "H") "Unknown", Option.getD (some 3) 0,
            btcVolume ⟨[⟨none⟩, ⟨some ⟨some 60000000000, some "X"⟩⟩],
              [⟨some 59990000000, none⟩], some "H", some 3⟩,
            feeBtc ⟨[⟨none⟩, ⟨some ⟨some 60000000000, some "X"⟩⟩],
              [⟨some 59990000000, none⟩], some "H", some 3⟩,
            "Unknown", "Unknown", processTxType [] "Unknown" "Unknown"⟩ :=
  ⟨(malformed_handling 500 [] ⟨[], [⟨some 1, some "B"⟩], some "H", some 0⟩).1 (Or.inl rfl),
   (malformed_handling 500 []
      ⟨[⟨none⟩, ⟨some ⟨some 60000000000, some "X"⟩⟩],
       [⟨some 59990000000, none⟩], some "H", some 3⟩).2
     ⟨none⟩ [⟨some ⟨some 60000000000, some "X"⟩⟩] ⟨some 59990000000, none⟩ []
     rfl rfl rfl rfl
     (by norm_num [btcVolume, totalInput, inputValue, satoshi_to_btc])⟩

/-! ## C8: the fee formula -/

/-- C8: every record `process_transaction` returns carries
`fee_btc = (total_input - total_output) / 1e8` over the exact satoshi
sums, and whenever the outputs exceed the inputs the fee is negative —
no clamping to zero. -/
theorem fee_exact_no_clamp (min_btc : ℚ) (dojAddrs : List String) (tx : RawTx)
    (r : WhaleRecord) (h : process_transaction min_btc dojAddrs tx = some r) :
    r.fee_btc = ((totalInput tx : ℚ) - (totalOutput tx : ℚ)) / 100000000 ∧
    (totalInput tx < totalOutput tx → r.fee_btc < 0) := by
  have hfee : r.fee_btc = feeBtc tx := by
    rw [process_transaction] at h
    by_cases hv : min_btc ≤ btcVolume tx
    · rw [if_pos hv] at h
      cases hie : tx.inputs with
      | nil => rw [hie] at h; exact Option.noConfusion h
      | cons inp ins =>
        cases hoe : tx.out with
        | nil => rw [hie, hoe] at h; exact Option.noConfusion h
        | cons o os =>
          rw [hie, hoe] at h
          obtain rfl := Option.some.inj h
          rfl
    · rw [if_neg hv] at h
      exact Option.noConfusion h
  constructor
  · rw [hfee, feeBtc, satoshi_to_btc]
  · intro hlt
    rw [hfee, feeBtc, satoshi_to_btc]
    apply div_neg_of_neg_of_pos
    · have : (totalInput tx : ℚ) < (totalOutput tx : ℚ) := by exact_mod_cast hlt
      linarith
    · norm_num

/-- Witness for C8: a whale transaction whose outputs (601 BTC) exceed
its inputs (600 BTC) has fee exactly -1 BTC, negative and unclamped. -/
theorem fee_exact_no_clamp_witness :
    ((⟨"H", 0, 600, -1, "A", "B", "alert #bitcoin"⟩ : WhaleRecord).fee_btc =
      ((totalInput ⟨[⟨some ⟨some 60000000000, some "A"⟩⟩],
          [⟨some 60100000000, some "B"⟩], some "H", some 0⟩ : ℚ) -
        (totalOutput ⟨[⟨some ⟨some 60000000000, some "A"⟩⟩],
          [⟨some 60100000000, some "B"⟩], some "H", some 0⟩ : ℚ)) / 100000000) ∧
    (⟨"H", 0, 600, -1, "A", "B", "alert #bitcoin"⟩ : WhaleRecord).fee_btc < 0 := by
  have h := fee_exact_no_clamp 500 []
    ⟨[⟨some ⟨some 60000000000, some "A"⟩⟩], [⟨some 60100000000, some "B"⟩], some "H", some 0⟩
    ⟨"H", 0, 600, -1, "A", "B", "alert #bitcoin"⟩
    (by norm_num [process_transaction, btcVolume, totalInput, totalOutput, inputValue,
          inputAddr, satoshi_to_btc, feeBtc, processTxType, binanceAddresses,
          coinbaseAddresses]
        decide)
  exact ⟨h.1, h.2 (by norm_num [totalInput, totalOutput, inputValue])⟩

/-! ## C10: the two classification code paths -/

/-- The fixed renaming between the labels of the two code paths
(`process_transaction` on the left, the `track_whale_transactions` loop on
the right). -/
def labelUpper : String → String := fun s =>
  if s = "witdrawal" then "WITHDRAWAL"
  else if s = "deposit" then "DEPOSIT"
  else if s = "doj transfer" then "DOJ TRANSFER"
  else if s = "alert #bitcoin" then "UNKNOWN"
  else s

/-- The two label chains branch on identical conditions, so the loop's
label is always the renaming of `process_transaction`'s label. -/
theorem trackTxType_eq_labelUpper (dojAddrs : List String) (s r : String) :
    trackTxType dojAddrs s r = labelUpper (processTxType dojAddrs s r) := by
  rw [trackTxType, processTxType]
  split_ifs <;> decide

/-- C10 counterexample: on the same whale transaction and tracker state
the two code paths disagree on `tx_type`: `process_transaction` labels an
unknown-party whale `alert #bitcoin` while the loop labels it `UNKNOWN`
(the strings also differ on the other three branches: `witdrawal` vs
`WITHDRAWAL`, etc.). -/
theorem two_paths_label_counterexample :
    (process_transaction 500 []
        ⟨[⟨some ⟨some 60000000000, some "A"⟩⟩],
         [⟨some 59990000000, some "B"⟩], some "H", some 0⟩).map
      (fun r => r.tx_type) = some "alert #bitcoin" ∧
    (trackTransaction 500 []
        ⟨[⟨some ⟨some 60000000000, some "A"⟩⟩],
         [⟨some 59990000000, some "B"⟩], some "H", some 0⟩).map
      (fun r => r.tx_type) = some "UNKNOWN" := by
  constructor
  · norm_num [process_transaction, btcVolume, totalInput, totalOutput, inputValue,
      inputAddr, satoshi_to_btc, processTxType, binanceAddresses, coinbaseAddresses]
    decide
  · norm_num [trackTransaction, btcVolume, totalInput, totalOutput, inputValue,
      inputAddr, satoshi_to_btc, trackTxType, binanceAddresses, coinbaseAddresses]
    decide

/-- C10 (amended): the two code paths keep or drop exactly the same
transactions, and on a kept transaction they agree on hash, timestamp,
sender, receiver, and on the numeric volume and fee content — the loop
stores the 8-decimal string rendering of the very satoshi quantities
whose exact quotients `process_transaction` stores — while the `tx_type`
strings differ by the fixed renaming `labelUpper`. -/
theorem two_paths_agree_up_to_label (min_btc : ℚ) (dojAddrs : List String) (tx : RawTx) :
    (process_transaction min_btc dojAddrs tx).isSome =
      (trackTransaction min_btc dojAddrs tx).isSome ∧
    (∀ r t, process_transaction min_btc dojAddrs tx = some r →
      trackTransaction min_btc dojAddrs tx = some t →
      t.transaction_hash = r.transaction_hash ∧
      t.timestamp = r.timestamp ∧
      t.sender = r.sender ∧ t.receiver = r.receiver ∧
      r.btc_volume = (totalInput tx : ℚ) / 100000000 ∧
      t.btc_volume = fmtSat8 (totalInput tx : ℤ) ∧
      r.fee_btc = ((totalInput tx : ℚ) - (totalOutput tx : ℚ)) / 100000000 ∧
      t.fee_btc = fmtSat8 ((totalInput tx : ℤ) - (totalOutput tx : ℤ)) ∧
      t.tx_type = labelUpper r.tx_type) := by
  rw [process_transaction, trackTransaction]
  by_cases hv : min_btc ≤ btcVolume tx
  · rw [if_pos hv, if_pos hv]
    cases hie : tx.inputs with
    | nil =>
      exact ⟨rfl, fun r t hr ht => Option.noConfusion hr⟩
    | cons inp ins =>
      cases hoe : tx.out with
      | nil =>
        exact ⟨rfl, fun r t hr ht => Option.noConfusion hr⟩
      | cons o os =>
        refine ⟨rfl, ?_⟩
        intro r t hr ht
        obtain rfl := Option.some.inj hr
        obtain rfl := Option.some.inj ht
        exact ⟨rfl, rfl, rfl, rfl, rfl, rfl, rfl, rfl,
          trackTxType_eq_labelUpper dojAddrs _ _⟩
  · rw [if_neg hv, if_neg hv]
    exact ⟨rfl, fun r t hr ht => Option.noConfusion hr⟩

/-- Witness for C10's amended agreement, at a concrete whale transaction
with unknown parties. -/
theorem two_paths_agree_up_to_label_witness :
    (process_transaction 500 []
        ⟨[⟨some ⟨some 60000000000, some "A"⟩⟩],
         [⟨some 59990000000, some "Bx"⟩], some "Hw", some 9⟩).isSome =
      (trackTransaction 500 []
        ⟨[⟨some ⟨some 60000000000, some "A"⟩⟩],
         [⟨some 59990000000, some "Bx"⟩], some "Hw", some 9⟩).isSome ∧
    ((⟨"Hw", 9, "600.00000000", "0.10000000", "A", "Bx", "UNKNOWN"⟩ : TrackRecord).transaction_hash
        = (⟨"Hw", 9, 600, (1 : ℚ)/10, "A", "Bx", "alert #bitcoin"⟩ : WhaleRecord).transaction_hash ∧
      (⟨"Hw", 9, "600.00000000", "0.10000000", "A", "Bx", "UNKNOWN"⟩ : TrackRecord).timestamp
        = (⟨"Hw", 9, 600, (1 : ℚ)/10, "A", "Bx", "alert #bitcoin"⟩ : WhaleRecord).timestamp ∧
      (⟨"Hw", 9, "600.00000000", "0.10000000", "A", "Bx", "UNKNOWN"⟩ : TrackRecord).sender
        = (⟨"Hw", 9, 600, (1 : ℚ)/10, "A", "Bx", "alert #bitcoin"⟩ : WhaleRecord).sender ∧
      (⟨"Hw", 9, "600.00000000", "0.10000000", "A", "Bx", "UNKNOWN"⟩ : TrackRecord).receiver
        = (⟨"Hw", 9, 600, (1 : ℚ)/10, "A", "Bx", "alert #bitcoin"⟩ : WhaleRecord).receiver ∧
      (⟨"Hw", 9, 600, (1 : ℚ)/10, "A", "Bx", "alert #bitcoin"⟩ : WhaleRecord).btc_volume
        = ((totalInput ⟨[⟨some ⟨some 60000000000, some "A"⟩⟩],
            [⟨some 59990000000, some "Bx"⟩], some "Hw", some 9⟩ : Nat) : ℚ) / 100000000 ∧
      (⟨"Hw", 9, "600.00000000", "0.10000000", "A", "Bx", "UNKNOWN"⟩ : TrackRecord).btc_volume
        = fmtSat8 ((totalInput ⟨[⟨some ⟨some 60000000000, some "A"⟩⟩],
            [⟨some 59990000000, some "Bx"⟩], some "Hw", some 9⟩ : Nat) : ℤ) ∧
      (⟨"Hw", 9, 600, (1 : ℚ)/10, "A", "Bx", "alert #bitcoin"⟩ : WhaleRecord).fee_btc
        = (((totalInput ⟨[⟨some ⟨some 60000000000, some "A"⟩⟩],
            [⟨some 59990000000, some "Bx"⟩], some "Hw", some 9⟩ : Nat) : ℚ) -
           ((totalOutput ⟨[⟨some ⟨some 60000000000, some "A"⟩⟩],
            [⟨some 59990000000, some "Bx"⟩], some "Hw", some 9⟩ : Nat) : ℚ)) / 100000000 ∧
      (⟨"Hw", 9, "600.00000000", "0.10000000", "A", "Bx", "UNKNOWN"⟩ : TrackRecord).fee_btc
        = fmtSat8 (((totalInput ⟨[⟨some ⟨some 60000000000, some "A"⟩⟩],
            [⟨some 59990000000, some "Bx"⟩], some "Hw", some 9⟩ : Nat) : ℤ) -
           ((totalOutput ⟨[⟨some ⟨some 60000000000, some "A"⟩⟩],
            [⟨some 59990000000, some "Bx"⟩], some "Hw", some 9⟩ : Nat) : ℤ)) ∧
      (⟨"Hw", 9, "600.00000000", "0.10000000", "A", "Bx", "UNKNOWN"⟩ : TrackRecord).tx_type
        = labelUpper (⟨"Hw", 9, 600, (1 : ℚ)/10, "A", "Bx", "alert #bitcoin"⟩ : WhaleRecord).tx_type) :=
  ⟨(two_paths_agree_up_to_label 500 []
      ⟨[⟨some ⟨some 60000000000, some "A"⟩⟩],
       [⟨some 59990000000, some "Bx"⟩], some "Hw", some 9⟩).1,
   (two_paths_agree_up_to_label 500 []
      ⟨[⟨some ⟨some 60000000000, some "A"⟩⟩],
       [⟨some 59990000000, some "Bx"⟩], some "Hw", some 9⟩).2
     ⟨"Hw", 9, 600, (1 : ℚ)/10, "A", "Bx", "alert #bitcoin"⟩
     ⟨"Hw", 9, "600.00000000", "0.10000000", "A", "Bx", "UNKNOWN"⟩
     (by norm_num [process_transaction, btcVolume, totalInput, totalOutput, inputValue,
          inputAddr, satoshi_to_btc, feeBtc, processTxType, binanceAddresses,
          coinbaseAddresses]
         decide)
     (by norm_num [trackTransaction, btcVolume, totalInput, totalOutput, inputValue,
          inputAddr, satoshi_to_btc, trackTxType, binanceAddresses, coinbaseAddresses,
          fmtSat8]
         decide)⟩

/-! ## DOJ monitor: case extraction, page scanning, history, merging -/

/-- The four optional case-metadata matches `extract_case_info` searches
`case_number`, `filing_date`, `district` and `amount` patterns for; each
field holds the first regex match over a block's text, when any. -/
structure CaseInfo where
  case_number : Option String
  filing_date : Option String
  district : Option String
  amount : Option String
deriving DecidableEq

/-- The `return info if info else None` step of `extract_case_info`
(lines 76-91): given the four regex outcomes, the function returns `None`
exactly when no field matched. The regex engine itself is the external
text layer; its four outcomes are this function's input. -/
def extract_case_info (fields : CaseInfo) : Option CaseInfo :=
  if fields = ⟨none, none, none, none⟩ then none else some fields

/-- The dictionary `scan_doj_page` appends to `found_addresses` for each
surviving candidate: address, source URL, discovery date, and the
extracted case fields (spread into the dict). -/
structure AddrInfo where
  address : String
  source_url : String
  discovery_date : String
  case_info : CaseInfo
deriving DecidableEq

/-- One text block of a monitored page (a `p`/`div`/`td` element): the
candidate address strings the pattern finds in its text, and the four
case-field regex outcomes over that text. -/
structure PageBlock where
  addrs : List String
  fields : CaseInfo
deriving DecidableEq

/-- Embedding of `scan_doj_page` (lines 93-119): for every block, each
pattern-matched address that passes `verify_bitcoin_address` (embedded as
`verify`) and whose block text yields extractable case info is collected
together with that info; candidates without case info are skipped. -/
def scan_doj_page (verify : String → Bool) (url date : String)
    (blocks : List PageBlock) : List AddrInfo :=
  (blocks.map (fun b =>
    (b.addrs.filter verify).filterMap (fun a =>
      (extract_case_info b.fields).map (fun ci => ⟨a, url, date, ci⟩)))).flatten

/-- The guarded insert of `update_addresses` (lines 137-138) on the
history's `addresses` mapping (an association list in JSON insertion
order): insert only if the address is not already a key, and report
whether an insert happened (the spec's `recordIfAbsent`). -/
def recordIfAbsent (h : List (String × AddrInfo)) (address : String) (info : AddrInfo) :
    List (String × AddrInfo) × Bool :=
  match h.lookup address with
  | some _ => (h, false)
  | none => (h ++ [(address, info)], true)

/-- The history-update loop of `update_addresses` (lines 132-139) over all
scanned candidates of one cycle. -/
def updateHistory (h : List (String × AddrInfo)) (scanned : List AddrInfo) :
    List (String × AddrInfo) :=
  scanned.foldl (fun acc ai => (recordIfAbsent acc ai.address ai).1) h

/-- The merging step of `start_doj_monitor`'s loop (lines 346-353):
`list(set(doj_bucket + [ai['address'] for ai in scanned]))`. A Python
set's iteration order is unspecified, so only membership is meaningful;
`dedup` of the concatenation realises that membership. -/
def mergeDoj (bucket : List String) (scanned : List AddrInfo) : List String :=
  (bucket ++ scanned.map (fun ai => ai.address)).dedup

theorem lookup_append_left {h : List (String × AddrInfo)} {a : String} {v : AddrInfo}
    (hv : h.lookup a = some v) (l : List (String × AddrInfo)) :
    (h ++ l).lookup a = some v := by
  induction h with
  | nil => simp [List.lookup] at hv
  | cons p t ih =>
    obtain ⟨k, b⟩ := p
    rw [List.cons_append]
    rw [List.lookup_cons] at hv ⊢
    cases hak : a == k with
    | true => rw [hak] at hv; simpa [hak] using hv
    | false =>
      rw [hak] at hv
      simp only [hak]
      exact ih hv

theorem lookup_append_single_of_none {h : List (String × AddrInfo)} {a x : String}
    (hv : h.lookup a = none) (hne : ¬ a == x) (i : AddrInfo) :
    (h ++ [(x, i)]).lookup a = none := by
  induction h with
  | nil => simp [List.lookup_cons, hne]
  | cons p t ih =>
    obtain ⟨k, b⟩ := p
    rw [List.lookup_cons] at hv
    cases hak : a == k with
    | true => rw [hak] at hv; exact Option.noConfusion hv
    | false =>
      rw [hak] at hv
      rw [List.cons_append, List.lookup_cons, hak]
      exact ih hv

theorem lookup_append_single_self {h : List (String × AddrInfo)} {a : String}
    (hv : h.lookup a = none) (i : AddrInfo) :
    (h ++ [(a, i)]).lookup a = some i := by
  induction h with
  | nil => simp [List.lookup_cons]
  | cons p t ih =>
    obtain ⟨k, b⟩ := p
    rw [List.lookup_cons] at hv
    cases hak : a == k with
    | true => rw [hak] at hv; exact Option.noConfusion hv
    | false =>
      rw [hak] at hv
      rw [List.cons_append, List.lookup_cons, hak]
      exact ih hv

/-- `recordIfAbsent` at any key never changes the binding an existing key
already has. -/
theorem recordIfAbsent_preserves {h : List (String × AddrInfo)} {a : String}
    {v : AddrInfo} (hv : h.lookup a = some v) (x : String) (i : AddrInfo) :
    ((recordIfAbsent h x i).1).lookup a = some v := by
  rw [recordIfAbsent]
  cases hx : h.lookup x with
  | some w => exact hv
  | none =>
    have hne : ¬ a == x := by
      intro hax
      rw [eq_of_beq hax] at hv
      rw [hv] at hx
      exact Option.noConfusion hx
    exact lookup_append_left hv _

/-- A whole cycle of history updates never changes an existing binding. -/
theorem updateHistory_preserves {a : String} {v : AddrInfo} :
    ∀ (scanned : List AddrInfo) (h : List (String × AddrInfo)),
      h.lookup a = some v → (updateHistory h scanned).lookup a = some v := by
  intro scanned
  induction scanned with
  | nil => intro h hv; exact hv
  | cons ai t ih =>
    intro h hv
    rw [updateHistory, List.foldl_cons]
    exact ih _ (recordIfAbsent_preserves hv ai.address ai)

theorem updateHistory_lookup_of_not_mem {a : String} :
    ∀ (scanned : List AddrInfo) (h : List (String × AddrInfo)),
      (∀ ai ∈ scanned, ¬ ai.address = a) →
      (updateHistory h scanned).lookup a = h.lookup a := by
  intro scanned
  induction scanned with
  | nil => intro h _; rfl
  | cons ai t ih =>
    intro h hall
    have hstep : ((recordIfAbsent h ai.address ai).1).lookup a = h.lookup a := by
      rw [recordIfAbsent]
      cases hx : h.lookup ai.address with
      | some w => rfl
      | none =>
        cases hv : h.lookup a with
        | some v => exact lookup_append_left hv _
        | none =>
          refine lookup_append_single_of_none hv ?_ ai
          intro hax
          exact hall ai (List.mem_cons_self _ _) (eq_of_beq hax).symm
    exact (ih ((recordIfAbsent h ai.address ai).1)
      (fun x hx => hall x (List.mem_cons_of_mem _ hx))).trans hstep

/-! ## C6: which scanned addresses get merged -/

/-- C6 counterexample: an address already present in the history (so
`recordIfAbsent` reports `false`) that reappears among a cycle's scanned
candidates is nevertheless merged into the DOJ bucket, even when it was
not yet a bucket member — the claim forbids that merge. -/
theorem merge_not_guarded_counterexample :
    (recordIfAbsent [("X", ⟨"X", "u0", "d0", ⟨some "c0", none, none, none⟩⟩)]
        "X" ⟨"X", "u1", "d1", ⟨some "c1", none, none, none⟩⟩).2 = false ∧
    "X" ∈ mergeDoj [] [⟨"X", "u1", "d1", ⟨some "c1", none, none, none⟩⟩] ∧
    "X" ∉ ([] : List String) := ⟨by decide, by decide, by decide⟩

/-- C6 (amended): the monitor loop merges every address among a cycle's
scan results into the government bucket, whether or not `recordIfAbsent`
newly recorded it — the absence guard protects only the history store —
and merging never removes existing bucket members. -/
theorem merge_all_scanned (bucket : List String) (scanned : List AddrInfo) (a : String) :
    (a ∈ scanned.map (fun ai => ai.address) → a ∈ mergeDoj bucket scanned) ∧
    (a ∈ bucket → a ∈ mergeDoj bucket scanned) := by
  constructor
  · intro h
    exact List.mem_dedup.mpr (List.mem_append.mpr (Or.inr h))
  · intro h
    exact List.mem_dedup.mpr (List.mem_append.mpr (Or.inl h))

/-- Witness for C6's amended merge behavior at concrete inputs. -/
theorem merge_all_scanned_witness :
    "Y" ∈ mergeDoj ["Z"] [⟨"Y", "u", "d", ⟨some "c", none, none, none⟩⟩] ∧
    "Z" ∈ mergeDoj ["Z"] [⟨"Y", "u", "d", ⟨some "c", none, none, none⟩⟩] :=
  ⟨(merge_all_scanned ["Z"] [⟨"Y", "u", "d", ⟨some "c", none, none, none⟩⟩] "Y").1
     (by decide),
   (merge_all_scanned ["Z"] [⟨"Y", "u", "d", ⟨some "c", none, none, none⟩⟩] "Z").2
     (by decide)⟩

/-! ## C7: write-once history -/

/-- C7: the address history is write-once per address: recording twice
with the same address and different case info keeps the first info, and
once an address is a key its binding survives any later `recordIfAbsent`
and any later whole update cycle. -/
theorem recordIfAbsent_write_once (h : List (String × AddrInfo)) (a : String)
    (i j : AddrInfo) :
    (h.lookup a = none →
      ((recordIfAbsent (recordIfAbsent h a i).1 a j).1).lookup a = some i) ∧
    (∀ v, h.lookup a = some v →
      ((recordIfAbsent h a i).1).lookup a = some v ∧
        ∀ scanned, (updateHistory h scanned).lookup a = some v) := by
  constructor
  · intro hnone
    have h1 : ((recordIfAbsent h a i).1).lookup a = some i := by
      rw [recordIfAbsent, hnone]
      exact lookup_append_single_self hnone i
    exact recordIfAbsent_preserves h1 a j
  · intro v hv
    exact ⟨recordIfAbsent_preserves hv a i,
      fun scanned => updateHistory_preserves scanned h hv⟩

/-- Witness for C7: double-record of the same address with different case
info keeps the first record. -/
theorem recordIfAbsent_write_once_witness :
    ((recordIfAbsent (recordIfAbsent [] "A1"
        ⟨"A1", "u1", "d1", ⟨some "c1", none, none, none⟩⟩).1 "A1"
        ⟨"A1", "u2", "d2", ⟨some "c2", none, none, none⟩⟩).1).lookup "A1" =
      some ⟨"A1", "u1", "d1", ⟨some "c1", none, none, none⟩⟩ :=
  (recordIfAbsent_write_once [] "A1"
      ⟨"A1", "u1", "d1", ⟨some "c1", none, none, none⟩⟩
      ⟨"A1", "u2", "d2", ⟨some "c2", none, none, none⟩⟩).1 rfl

/-! ## C9: candidates without case metadata are dropped -/

theorem scan_doj_page_address_mem {verify : String → Bool} {url date : String}
    {blocks : List PageBlock} {ai : AddrInfo}
    (h : ai ∈ scan_doj_page verify url date blocks) :
    ∃ b ∈ blocks, ai.address ∈ b.addrs ∧
      extract_case_info b.fields = some ai.case_info := by
  rw [scan_doj_page] at h
  simp only [List.mem_flatten, List.mem_map] at h
  obtain ⟨s, ⟨b, hb, rfl⟩, hs⟩ := h
  simp only [List.mem_filterMap, List.mem_filter] at hs
  obtain ⟨x, ⟨hxb, hxv⟩, hgx⟩ := hs
  cases hec : extract_case_info b.fields with
  | none => rw [hec] at hgx; exact Option.noConfusion hgx
  | some ci =>
    rw [hec, Option.map_some'] at hgx
    obtain rfl := Option.some.inj hgx
    exact ⟨b, hb, hxb, hec⟩

/-- C9: a candidate address all of whose containing blocks yield no
extractable case metadata never survives `scan_doj_page`, so an update
cycle leaves both the history mapping and the DOJ bucket unchanged with
respect to it — the candidate is dropped without a trace. -/
theorem no_metadata_candidate_dropped (verify : String → Bool) (url date : String)
    (blocks : List PageBlock) (hist : List (String × AddrInfo))
    (bucket : List String) (a : String)
    (hno : ∀ b ∈ blocks, a ∈ b.addrs → extract_case_info b.fields = none) :
    (updateHistory hist (scan_doj_page verify url date blocks)).lookup a =
      hist.lookup a ∧
    (a ∈ mergeDoj bucket (scan_doj_page verify url date blocks) ↔ a ∈ bucket) := by
  have hnone : ∀ ai ∈ scan_doj_page verify url date blocks, ¬ ai.address = a := by
    intro ai hai haa
    obtain ⟨b, hb, hmem, hex⟩ := scan_doj_page_address_mem hai
    rw [haa] at hmem
    rw [hno b hb hmem] at hex
    exact Option.noConfusion hex
  constructor
  · exact updateHistory_lookup_of_not_mem _ hist hnone
  · rw [mergeDoj]
    constructor
    · intro hm
      rcases List.mem_append.mp (List.mem_dedup.mp hm) with h | h
      · exact h
      · exfalso
        obtain ⟨ai, hai, haa⟩ := List.mem_map.mp h
        exact hnone ai hai haa
    · intro hb
      exact List.mem_dedup.mpr (List.mem_append.mpr (Or.inl hb))

/-- Witness for C9: one candidate on the page, verified, but with no
extractable metadata; the history and bucket are unchanged for it. -/
theorem no_metadata_candidate_dropped_witness :
    (updateHistory [("Z", ⟨"Z", "uz", "dz", ⟨some "cz", none, none, none⟩⟩)]
        (scan_doj_page (fun _ => true) "u" "d"
          [⟨["addr1"], ⟨none, none, none, none⟩⟩])).lookup "addr1" =
      ([("Z", ⟨"Z", "uz", "dz", ⟨some "cz", none, none, none⟩⟩)] :
        List (String × AddrInfo)).lookup "addr1" ∧
    ("addr1" ∈ mergeDoj ["Z"] (scan_doj_page (fun _ => true) "u" "d"
        [⟨["addr1"], ⟨none, none, none, none⟩⟩]) ↔ "addr1" ∈ ["Z"]) :=
  no_metadata_candidate_dropped (fun _ => true) "u" "d"
    [⟨["addr1"], ⟨none, none, none, none⟩⟩]
    [("Z", ⟨"Z", "uz", "dz", ⟨some "cz", none, none, none⟩⟩)] ["Z"] "addr1"
    (by decide)
